import Mathlib

/-!
Verification of the download-counter ingestion core
(`src/dlcounter/dlcounter.py`; `src/download_counter/download_counter.py`
is an older near-identical copy with the same logic for every function
modelled here).

Shallow embedding conventions:

* Naive `datetime` values are order-embedded into `Nat`; `0` stands for
  `datetime.min`, the "beginning of time" sentinel.  Only ordering and
  equality of timestamps matter to the code.
* The SQLite table `downloads (id INTEGER PRIMARY KEY, filename TEXT NOT
  NULL UNIQUE, timestamp TIMESTAMP NOT NULL, total INTEGER DEFAULT 0)` is
  a list of rows in rowid order; a fresh rowid is `max existing id + 1`.
* `datetime.strptime(s, time_format.read).replace(tzinfo=None)` is a
  parameter `stp : String → Option Nat` (the read format string comes from
  configuration, which the program treats as opaque); `none` models a
  `ValueError`.
* Fatal terminations (`sys.exit`) and the unhandled `AttributeError` of
  `get_record` (calling `.group()` on `None`) are modelled with `Except`.
* The regular expressions the program uses are fixed shapes:
  `f'GET {re.escape(path)}.*{re.escape(file)}'` (two escaped literals
  around a greedy `.*`), `r'"(.+?)"(\s\d{3}){1}'`, `'200$'` and
  `r"\[.*\]"`.  Their Python `re.search` semantics (leftmost start
  position, greedy `.*` taking the longest newline-free gap, lazy `.+?`
  taking the shortest) are embedded directly as executable functions on
  `List Char`.
-/

namespace DLC

/-- Timestamps: naive datetimes order-embedded into `Nat`; `0` is `datetime.min`. -/
abbrev Time := Nat

/-- One row of the `downloads` table. -/
structure Row where
  id : Nat
  filename : String
  timestamp : Time
  total : Nat
deriving Repr, DecidableEq

/-- The `downloads` table, rows in rowid order (the order `SELECT *` returns). -/
abbrev DB := List Row

/-- An extracted event: `(short filename, parsed timestamp)`. -/
abbrev Event := String × Time

/-- How a run can abort: `fatalExit` is `sys.exit(msg)`, `attrError` is the
unhandled `AttributeError` raised by `re.search(...).group()` when the status
search in `get_record` finds no match. -/
inductive RunError where
  | fatalExit (msg : String)
  | attrError
deriving Repr, DecidableEq

/-- Does the first list start the second one?  (Used to match pattern literals.) -/
def charsStart : List Char → List Char → Bool
  | [], _ => true
  | _ :: _, [] => false
  | p :: ps, c :: cs => p == c && charsStart ps cs

/-- Attempt to match the regex `A.*B` (A, B literal, `.*` greedy, `.` excludes
newline) at the start of `rest`; returns the matched span (`match.group(0)`). -/
def matchAt (pa pb rest : List Char) : Option (List Char) :=
  if charsStart pa rest then
    let tl := rest.drop pa.length
    let js := (List.range (tl.length + 1)).filter
      (fun j => (tl.take j).all (fun c => !(c == '\n')) && charsStart pb (tl.drop j))
    match js.getLast? with
    | some j => some (rest.take (pa.length + j + pb.length))
    | none => none
  else none

/-- `re.search` for the pattern `A.*B`: try each start position left to right
(dlcounter.py line 310 `re.search(pattern, record)` with pattern
`f'GET {re.escape(start)}.*{re.escape(end)}'`, and line 335
`re.search(r"\[.*\]", record)` with A = `[`, B = `]`). -/
def reSearch (pa pb : List Char) : List Char → Option (List Char)
  | [] => matchAt pa pb []
  | c :: rest =>
    match matchAt pa pb (c :: rest) with
    | some m => some m
    | none => reSearch pa pb rest

/-- Python `\s` on the ASCII range. -/
def isPySpace (c : Char) : Bool :=
  c == ' ' || c == '\t' || c == '\n' || c == '\r' || c == '\x0b' || c == '\x0c'

/-- After the lazy group of `"(.+?)"(\s\d{3}){1}` has consumed `k` characters,
does the rest of the pattern (`"`, one `\s`, three `\d`) match? -/
def statusTail : List Char → Bool
  | '"' :: w :: d1 :: d2 :: d3 :: _ =>
    isPySpace w && d1.isDigit && d2.isDigit && d3.isDigit
  | _ => false

/-- Does `"(.+?)"(\s\d{3}){1}` match at an opening quote with lazy-group
length `k`?  (`.` excludes newline.) -/
def statusTryK (rest : List Char) (k : Nat) : Bool :=
  (rest.take k).all (fun c => !(c == '\n')) && statusTail (rest.drop k)

/-- Attempt to match `"(.+?)"(\s\d{3}){1}` at the start of the list: the first
character must be `"`, then the lazy `.+?` takes the SHORTEST workable length
`k ≥ 1`.  Returns the matched span. -/
def statusMatchAt : List Char → Option (List Char)
  | '"' :: rest =>
    match (List.range (rest.length + 1)).find? (fun k => decide (1 ≤ k) && statusTryK rest k) with
    | some k => some ('"' :: rest.take (k + 5))
    | none => none
  | _ => none

/-- `re.search(r'"(.+?)"(\s\d{3}){1}', record)` (dlcounter.py lines 313-316):
leftmost start position wins, lazy group shortest.  Returns `response`
(`match.group()`), or `none` — in which case the source crashes with
`AttributeError` on `.group()`. -/
def statusSearch : List Char → Option (List Char)
  | [] => none
  | c :: rest =>
    match statusMatchAt (c :: rest) with
    | some m => some m
    | none => statusSearch rest

/-- `re.search('200$', response)` as a Bool (dlcounter.py line 317): `$`
matches at the end of the string or just before a final newline. -/
def endsWith200 (resp : List Char) : Bool :=
  charsStart ['0', '0', '2'] resp.reverse || charsStart ['\n', '0', '0', '2'] resp.reverse

/-- The last three characters of the status-search span: the 3-digit HTTP
status code that `"(.+?)"(\s\d{3}){1}` captured. -/
def statusDigits (resp : List Char) : List Char :=
  (resp.reverse.take 3).reverse

/-- `found[0].split('/')[-1]` (dlcounter.py line 315): the final `/`-separated
segment of the matched span. -/
def lastSegment (s : List Char) : List Char :=
  (s.reverse.takeWhile (fun c => !(c == '/'))).reverse

/-- Is the character one of the characters stripped by `.strip('[]')`? -/
def isSquare (c : Char) : Bool := c == '[' || c == ']'

/-- Python `str.strip('[]')` (dlcounter.py line 337): remove leading and
trailing `[` / `]` characters. -/
def pyStrip (s : List Char) : List Char :=
  ((s.dropWhile isSquare).reverse.dropWhile isSquare).reverse

/-- `get_time` (dlcounter.py lines 322-345): find the bracketed field with
`re.search(r"\[.*\]", record)`, strip the brackets, parse with the configured
read format (`stp`); a parse failure (`ValueError`) and a missing bracketed
field are both `sys.exit`. -/
def get_time (stp : String → Option Time) (record : String) : Except RunError Time :=
  match reSearch ['['] [']'] record.data with
  | some span =>
    match stp (String.mk (pyStrip span)) with
    | some t => .ok t
    | none => .error (.fatalExit ("ValueError"))
  | none => .error (.fatalExit ("Could not read timestamp from log."))

/-- One search pattern `f'GET {re.escape(path)}.*{re.escape(file)}'`, kept in
interpreted form: `re.escape` makes both pieces literal, so the pattern is the
literal `"GET " ++ path`, a greedy `.*`, and the literal `file`. -/
structure SearchPattern where
  pa : List Char
  pb : List Char
deriving Repr, DecidableEq

/-- `get_record` (dlcounter.py lines 292-319).  Returns `.ok none` when the
line records no accepted event, `.ok (some (filename, time))` for an accepted
download, and an error when the source would terminate (or crash: when the
filename pattern matched but the status search returns `None`, the source
calls `.group()` on `None` and dies with `AttributeError`). -/
def get_record (stp : String → Option Time) (record : String) (p : SearchPattern) :
    Except RunError (Option Event) :=
  match reSearch p.pa p.pb record.data with
  | none => .ok none
  | some span =>
    match statusSearch record.data with
    | none => .error .attrError
    | some resp =>
      if endsWith200 resp then
        match get_time stp record with
        | .ok t => .ok (some (String.mk (lastSegment span), t))
        | .error e => .error e
      else .ok none

/-- `Update downloads set timestamp = ? where filename = ?` (dlcounter.py line 369). -/
def setTimestamp (f : String) (t : Time) (db : DB) : DB :=
  db.map (fun r => if r.filename = f then { r with timestamp := t } else r)

/-- `Update downloads set total = total + 1 where filename = ?` (line 370). -/
def bumpTotal (f : String) (db : DB) : DB :=
  db.map (fun r => if r.filename = f then { r with total := r.total + 1 } else r)

/-- The largest rowid in the table (0 when empty); SQLite assigns
`maxId + 1` to a fresh `INTEGER PRIMARY KEY`. -/
def maxId (db : DB) : Nat := db.foldl (fun a r => max a r.id) 0

/-- `update_db` (dlcounter.py lines 348-378): timestamp update, counter
update, then `INSERT OR IGNORE` (ignored exactly when a row with this
filename already exists). -/
def update_db (db : DB) (fname : String) (timestamp : Time) : DB :=
  let db2 := bumpTotal fname (setTimestamp fname timestamp db)
  if db2.any (fun r => r.filename == fname) then db2
  else db2 ++ [⟨maxId db2 + 1, fname, timestamp, 1⟩]

/-- `get_db_time` (dlcounter.py lines 243-267): maximum of the `timestamp`
column, starting from `datetime.min`. -/
def get_db_time (db : DB) : Time :=
  db.foldl (fun recent r => if r.timestamp > recent then r.timestamp else recent) 0

/-- `SELECT` of the unique row with this filename (the row `WHERE filename = ?`
targets; `filename` is UNIQUE so the first match is the row). -/
def lookup (db : DB) (f : String) : Option Row :=
  db.find? (fun r => r.filename == f)

/-- The inner `for regex in searchstring:` loop of `log_to_sql`
(dlcounter.py lines 555-560), threading `(database, _modified)`. -/
def lineStepGo (stp : String → Option Time) (tc : Time) (line : String) :
    List SearchPattern → DB × Bool → Except RunError (DB × Bool)
  | [], a => .ok a
  | p :: ps, a =>
    match get_record stp line p with
    | .error e => .error e
    | .ok none => lineStepGo stp tc line ps a
    | .ok (some ev) =>
      if ev.2 > tc then lineStepGo stp tc line ps (update_db a.1 ev.1 ev.2, true)
      else lineStepGo stp tc line ps a

/-- The outer `for line in log:` loop of `log_to_sql` (lines 553-560). -/
def logLinesGo (stp : String → Option Time) (tc : Time) (ps : List SearchPattern) :
    List String → DB × Bool → Except RunError (DB × Bool)
  | [], a => .ok a
  | line :: rest, a =>
    match lineStepGo stp tc line ps a with
    | .error e => .error e
    | .ok a' => logLinesGo stp tc ps rest a'

/-- `log_to_sql` (dlcounter.py lines 527-561): `timecheck = None` (the init
path) becomes `datetime.min`; `_modified` starts `False`; returns the updated
table and `_modified`. -/
def log_to_sql (stp : String → Option Time) (db : DB) (lines : List String)
    (ps : List SearchPattern) (timecheck : Option Time) : Except RunError (DB × Bool) :=
  logLinesGo stp (timecheck.getD 0) ps lines (db, false)

/-- The `for log in opt['acclogs']:` loop of `main` (dlcounter.py lines
503-510).  A log is `none` when opening it raises `FileNotFoundError`: the
error is printed and the loop continues, leaving `_modified` (and the table)
untouched.  For a present log, `_modified = log_to_sql(...)` REASSIGNS the
flag from this file's result. -/
def mainGo (stp : String → Option Time) (ps : List SearchPattern) (snap : Time) :
    List (Option (List String)) → DB × Bool → Except RunError (DB × Bool)
  | [], a => .ok a
  | none :: rest, a => mainGo stp ps snap rest a
  | some lines :: rest, a =>
    match log_to_sql stp a.1 lines ps (some snap) with
    | .error e => .error e
    | .ok a' => mainGo stp ps snap rest a'

/-- `main` (dlcounter.py lines 474-524), incremental mode: create the table if
absent, take ONE watermark snapshot `db_last_updated = get_db_time(conn)`,
process each configured log against that snapshot, and return the final table
together with `_modified` — the flag that gates the end-of-run
`conn.commit(); conn.execute("VACUUM")` step. -/
def main (stp : String → Option Time) (ps : List SearchPattern)
    (logs : List (Option (List String))) (db : DB) : Except RunError (DB × Bool) :=
  mainGo stp ps (get_db_time db) logs (db, false)

/-- The `for acclog in iglob(logpath + '*')` loop of `init_db` (dlcounter.py
lines 445-459): gzip and plain files are read identically; a file that fails
to open is printed and skipped; `log_to_sql` is called WITHOUT `timecheck`. -/
def initGo (stp : String → Option Time) (ps : List SearchPattern) :
    List (Option (List String)) → DB → Except RunError DB
  | [], d => .ok d
  | none :: rest, d => initGo stp ps rest d
  | some lines :: rest, d =>
    match log_to_sql stp d lines ps none with
    | .error e => .error e
    | .ok a => initGo stp ps rest a.1

/-- `init_db` (dlcounter.py lines 417-471), reinitialize mode:
`DROP TABLE IF EXISTS downloads` then `sql_table` leave an empty table, then
every globbed file is processed with no stored watermark. -/
def init_db (stp : String → Option Time) (ps : List SearchPattern)
    (logs : List (Option (List String))) : Except RunError DB :=
  initGo stp ps logs []

/-- The characters Python `re.escape` escapes (its `_special_chars_map`). -/
def escapedChars : List Char :=
  ['(', ')', '[', ']', '{', '}', '?', '*', '+', '-', '|', '^', '$', '\\',
   '.', '&', '~', '#', ' ', '\t', '\n', '\r', '\x0b', '\x0c']

/-- `re.escape` on the character list. -/
def reEscapeList : List Char → List Char
  | [] => []
  | c :: cs =>
    if c ∈ escapedChars then '\\' :: c :: reEscapeList cs
    else c :: reEscapeList cs

/-- Python `re.escape`. -/
def reEscape (s : String) : String := String.mk (reEscapeList s.data)

/-- Remove one level of backslash escaping: the literal a regex engine reads
off an escaped pattern piece. -/
def unescapeList : List Char → List Char
  | [] => []
  | c :: cs =>
    if c = '\\' then
      match cs with
      | [] => [c]
      | c2 :: cs2 => c2 :: unescapeList cs2
    else c :: unescapeList cs

/-- One pattern string `f'GET {re.escape(path)}.*{re.escape(file)}'`
(dlcounter.py line 594). -/
def build_pattern_str (path file : String) : String :=
  "GET " ++ reEscape path ++ ".*" ++ reEscape file

/-- The same pattern in interpreted form: the escaped pieces are the literals
`"GET " ++ path` and `file` around a greedy `.*`. -/
def build_pattern (path file : String) : SearchPattern :=
  ⟨("GET " ++ path).data, file.data⟩

/-- `re_patterns` of `get_config` (dlcounter.py lines 594-595): one pattern
per configured suffix, as strings. -/
def re_patterns_str (path : String) (files : List String) : List String :=
  files.map (build_pattern_str path)

/-- `re_patterns`, interpreted form (what the rest of the pipeline consumes). -/
def re_patterns (path : String) (files : List String) : List SearchPattern :=
  files.map (build_pattern path)

/-- Events extracted from one line, in pattern order (the successful
`get_record` results of the inner loop of `log_to_sql`). -/
def lineEventsGo (stp : String → Option Time) (line : String) :
    List SearchPattern → List Event → Except RunError (List Event)
  | [], acc => .ok acc
  | p :: ps, acc =>
    match get_record stp line p with
    | .error e => .error e
    | .ok none => lineEventsGo stp line ps acc
    | .ok (some ev) => lineEventsGo stp line ps (acc ++ [ev])

/-- Events extracted from one line. -/
def lineEvents (stp : String → Option Time) (line : String)
    (ps : List SearchPattern) : Except RunError (List Event) :=
  lineEventsGo stp line ps []

/-- Events extracted from one file, in processing order. -/
def fileEventsGo (stp : String → Option Time) (ps : List SearchPattern) :
    List String → List Event → Except RunError (List Event)
  | [], acc => .ok acc
  | line :: rest, acc =>
    match lineEventsGo stp line ps acc with
    | .error e => .error e
    | .ok acc' => fileEventsGo stp ps rest acc'

/-- Events extracted from one file. -/
def fileEvents (stp : String → Option Time) (lines : List String)
    (ps : List SearchPattern) : Except RunError (List Event) :=
  fileEventsGo stp ps lines []

/-- Events extracted from a whole run's logs (missing files contribute none). -/
def runEventsGo (stp : String → Option Time) (ps : List SearchPattern) :
    List (Option (List String)) → List Event → Except RunError (List Event)
  | [], acc => .ok acc
  | none :: rest, acc => runEventsGo stp ps rest acc
  | some lines :: rest, acc =>
    match fileEventsGo stp ps lines acc with
    | .error e => .error e
    | .ok acc' => runEventsGo stp ps rest acc'

/-- Events extracted from a whole run. -/
def runEvents (stp : String → Option Time) (logs : List (Option (List String)))
    (ps : List SearchPattern) : Except RunError (List Event) :=
  runEventsGo stp ps logs []

/-- The events the watermark test `data[1] > timecheck` lets through. -/
def accepted (tc : Time) (evs : List Event) : List Event :=
  evs.filter (fun e => tc < e.2)

/-- Replay a list of events through `update_db`. -/
def applyEvents (db : DB) (evs : List Event) : DB :=
  evs.foldl (fun d e => update_db d e.1 e.2) db

/-- A concrete read-format parser for witnesses: a nonempty all-digit string
parses to its value, anything else is a `ValueError`. -/
def spDigits (s : String) : Option Time :=
  if s.data ≠ [] ∧ s.data.all Char.isDigit then
    some (s.data.foldl (fun a c => 10 * a + (c.toNat - 48)) 0)
  else none

/-- The combined effect of the two UPDATE statements of `update_db` on one
row: rows with the target filename get the new timestamp and `total + 1`. -/
def updRow (f : String) (t : Time) (r : Row) : Row :=
  if r.filename = f then ⟨r.id, r.filename, t, r.total + 1⟩ else r

/-- Concrete pattern for witnesses: path `/u/`, suffix `.zip`. -/
def patU : SearchPattern := build_pattern ("/u/") (".zip")

/-- Concrete pattern for the basename witness: path `/a/`, suffix `.zip`. -/
def patA : SearchPattern := build_pattern ("/a/") (".zip")

/-- An accepted-download log line with timestamp field `t`. -/
def lineT (t : String) : String := "x [" ++ t ++ "] \"GET /u/f.zip\" 200"

/-- C4 witness line: matches the pattern but carries status 404. -/
def c4line : String := "b [5] \"GET /u/f.zip\" 404"

/-- C5 counterexample line: a matching 200-status event timestamped at the
`datetime.min` sentinel. -/
def c5line0 : String := "a [0] \"GET /u/f.zip\" 200"

/-- C6 counterexample line: matches the pattern, carries status 404, and has
no bracketed timestamp field at all. -/
def c6line : String := "q \"GET /u/f.zip\" 404 x"

/-- C6 witness line: matches, status 200, and no bracketed timestamp field. -/
def c6wline : String := "a \"GET /u/f.zip\" 200"

/-- C9 witness line: matches the filename pattern but contains no quoted
field followed by whitespace and three digits. -/
def c9line : String := "GET /u/f.zip"

/-- C7 witness line: full path `/a/x/report.zip`. -/
def c7line1 : String := "[3] \"GET /a/x/report.zip\" 200"

/-- C7 witness line: full path `/a/y/report.zip`, same basename. -/
def c7line2 : String := "[7] \"GET /a/y/report.zip\" 200"

/-- C10 line: an accepted event at timestamp 6. -/
def c10line : String := "[6] \"GET /u/f.zip\" 200"

/-- C5 witness: first log fragment, 5 matching events, out of timestamp order. -/
def c5file1 : List String :=
  [lineT ("7"), lineT ("2"), lineT ("9"), lineT ("5"), lineT ("6")]

/-- C5 witness: second log fragment, 3 matching events. -/
def c5file2 : List String := [lineT ("3"), lineT ("8"), lineT ("1")]

/-- C5 witness: third log fragment, 2 matching events; the last processed
event is timestamped 4. -/
def c5file3 : List String := [lineT ("10"), lineT ("4")]

end DLC

namespace DLC

/-- The event accumulator of `lineEventsGo` only prepends. -/
theorem lineEventsGo_append (stp : String → Option Time) (line : String)
    (ps : List SearchPattern) : ∀ (acc : List Event),
    lineEventsGo stp line ps acc =
      match lineEventsGo stp line ps [] with
      | .error e => .error e
      | .ok l => .ok (acc ++ l) := by
  induction ps with
  | nil => intro acc; simp [lineEventsGo]
  | cons p ps ih =>
    intro acc
    simp only [lineEventsGo]
    cases hr : get_record stp line p with
    | error e => rfl
    | ok o =>
      cases o with
      | none => exact ih acc
      | some ev =>
        dsimp only
        simp only [List.nil_append]
        rw [ih (acc ++ [ev]), ih [ev]]
        cases lineEventsGo stp line ps [] <;> simp

/-- The inner pattern loop of `log_to_sql` applies exactly the accepted
events of the line, in order, and raises `_modified` iff it accepted one. -/
theorem lineStepGo_spec (stp : String → Option Time) (tc : Time) (line : String)
    (ps : List SearchPattern) : ∀ (a : DB × Bool),
    lineStepGo stp tc line ps a =
      match lineEventsGo stp line ps [] with
      | .error e => .error e
      | .ok l => .ok (applyEvents a.1 (accepted tc l), a.2 || !(accepted tc l).isEmpty) := by
  induction ps with
  | nil => intro a; simp [lineStepGo, lineEventsGo, applyEvents, accepted]
  | cons p ps ih =>
    intro a
    simp only [lineStepGo, lineEventsGo]
    cases hr : get_record stp line p with
    | error e => rfl
    | ok o =>
      cases o with
      | none => exact ih a
      | some ev =>
        dsimp only
        simp only [List.nil_append]
        rw [lineEventsGo_append stp line ps [ev]]
        by_cases hacc : ev.2 > tc
        · rw [if_pos hacc, ih (update_db a.1 ev.1 ev.2, true)]
          cases lineEventsGo stp line ps [] with
          | error e => rfl
          | ok l =>
            simp [accepted, List.filter_cons, hacc, applyEvents, List.isEmpty_cons]
        · rw [if_neg hacc, ih a]
          cases lineEventsGo stp line ps [] with
          | error e => rfl
          | ok l =>
            simp [accepted, List.filter_cons, hacc]

end DLC

namespace DLC

/-- `isEmpty` of an append. -/
theorem isEmpty_append_evs (l1 l2 : List Event) :
    (l1 ++ l2).isEmpty = (l1.isEmpty && l2.isEmpty) := by
  cases l1 <;> simp

/-- The event accumulator of `fileEventsGo` only prepends. -/
theorem fileEventsGo_append (stp : String → Option Time) (ps : List SearchPattern) :
    ∀ (lines : List String) (acc : List Event),
    fileEventsGo stp ps lines acc =
      match fileEventsGo stp ps lines [] with
      | .error e => .error e
      | .ok l => .ok (acc ++ l) := by
  intro lines
  induction lines with
  | nil => intro acc; simp [fileEventsGo]
  | cons line rest ih =>
    intro acc
    simp only [fileEventsGo]
    rw [lineEventsGo_append stp line ps acc, lineEventsGo_append stp line ps []]
    cases lineEventsGo stp line ps [] with
    | error e => rfl
    | ok l1 =>
      dsimp only
      simp only [List.nil_append]
      rw [ih (acc ++ l1), ih l1]
      cases fileEventsGo stp ps rest [] <;> simp

/-- The line loop of `log_to_sql` applies exactly the accepted events of the
file, in order, and its final `_modified` is the initial one OR-ed with
"some event of this file was accepted". -/
theorem logLinesGo_spec (stp : String → Option Time) (tc : Time) (ps : List SearchPattern) :
    ∀ (lines : List String) (a : DB × Bool),
    logLinesGo stp tc ps lines a =
      match fileEventsGo stp ps lines [] with
      | .error e => .error e
      | .ok l => .ok (applyEvents a.1 (accepted tc l), a.2 || !(accepted tc l).isEmpty) := by
  intro lines
  induction lines with
  | nil => intro a; simp [logLinesGo, fileEventsGo, applyEvents, accepted]
  | cons line rest ih =>
    intro a
    simp only [logLinesGo, fileEventsGo]
    rw [lineStepGo_spec stp tc line ps a, lineEventsGo_append stp line ps []]
    cases lineEventsGo stp line ps [] with
    | error e => rfl
    | ok l1 =>
      dsimp only
      simp only [List.nil_append]
      rw [ih (applyEvents a.1 (accepted tc l1), a.2 || !(accepted tc l1).isEmpty),
          fileEventsGo_append stp ps rest l1]
      cases fileEventsGo stp ps rest [] with
      | error e => rfl
      | ok l2 =>
        dsimp only
        simp only [accepted, List.filter_append, applyEvents, List.foldl_append,
          isEmpty_append_evs, Bool.not_and, Bool.or_assoc]

end DLC

namespace DLC

/-- The event accumulator of `runEventsGo` only prepends. -/
theorem runEventsGo_append (stp : String → Option Time) (ps : List SearchPattern) :
    ∀ (logs : List (Option (List String))) (acc : List Event),
    runEventsGo stp ps logs acc =
      match runEventsGo stp ps logs [] with
      | .error e => .error e
      | .ok l => .ok (acc ++ l) := by
  intro logs
  induction logs with
  | nil => intro acc; simp [runEventsGo]
  | cons log rest ih =>
    intro acc
    cases log with
    | none => simpa only [runEventsGo] using ih acc
    | some lines =>
      simp only [runEventsGo]
      rw [fileEventsGo_append stp ps lines acc, fileEventsGo_append stp ps lines []]
      cases fileEventsGo stp ps lines [] with
      | error e => rfl
      | ok l1 =>
        dsimp only
        simp only [List.nil_append]
        rw [ih (acc ++ l1), ih l1]
        cases runEventsGo stp ps rest [] <;> simp

/-- `main`'s log loop stores exactly the events accepted against the fixed
snapshot, in extraction order (the `_modified` flag is existential here; see
the dedicated lemma for its value). -/
theorem mainGo_spec (stp : String → Option Time) (ps : List SearchPattern) (snap : Time) :
    ∀ (logs : List (Option (List String))) (a : DB × Bool),
    (match runEventsGo stp ps logs [] with
     | .error e => mainGo stp ps snap logs a = .error e
     | .ok l => ∃ m, mainGo stp ps snap logs a = .ok (applyEvents a.1 (accepted snap l), m)) := by
  intro logs
  induction logs with
  | nil =>
    intro a
    simp only [runEventsGo, mainGo]
    exact ⟨a.2, by simp [applyEvents, accepted]⟩
  | cons log rest ih =>
    intro a
    cases log with
    | none => simpa only [runEventsGo, mainGo] using ih a
    | some lines =>
      simp only [runEventsGo, mainGo, log_to_sql, Option.getD]
      rw [logLinesGo_spec stp snap ps lines (a.1, false)]
      cases fileEventsGo stp ps lines [] with
      | error e => rfl
      | ok l1 =>
        dsimp only
        rw [runEventsGo_append stp ps rest l1]
        have h2 := ih (applyEvents a.1 (accepted snap l1), false || !(accepted snap l1).isEmpty)
        revert h2
        cases runEventsGo stp ps rest [] with
        | error e => intro h2; exact h2
        | ok l2 =>
          intro h2
          obtain ⟨m, hm⟩ := h2
          exact ⟨m, by
            rw [hm]
            simp [accepted, List.filter_append, applyEvents, List.foldl_append]⟩

/-- `init_db`'s file loop: every extracted event with timestamp strictly
above the `datetime.min` sentinel is applied, starting from the dropped
(empty) table. -/
theorem initGo_spec (stp : String → Option Time) (ps : List SearchPattern) :
    ∀ (logs : List (Option (List String))) (d : DB),
    (match runEventsGo stp ps logs [] with
     | .error e => initGo stp ps logs d = .error e
     | .ok l => initGo stp ps logs d = .ok (applyEvents d (accepted 0 l))) := by
  intro logs
  induction logs with
  | nil =>
    intro d
    simp [runEventsGo, initGo, applyEvents, accepted]
  | cons log rest ih =>
    intro d
    cases log with
    | none => simpa only [runEventsGo, initGo] using ih d
    | some lines =>
      simp only [runEventsGo, initGo, log_to_sql, Option.getD]
      rw [logLinesGo_spec stp 0 ps lines (d, false)]
      cases fileEventsGo stp ps lines [] with
      | error e => rfl
      | ok l1 =>
        dsimp only
        rw [runEventsGo_append stp ps rest l1]
        have h2 := ih (applyEvents d (accepted 0 l1))
        revert h2
        cases runEventsGo stp ps rest [] with
        | error e => intro h2; exact h2
        | ok l2 =>
          intro h2
          rw [h2]
          simp [accepted, List.filter_append, applyEvents, List.foldl_append]

end DLC

namespace DLC

/-- With every configured log file present, the final `_modified` flag is the
REASSIGNED per-file flag: a fold that ignores the previous value. -/
theorem mainGo_present (stp : String → Option Time) (ps : List SearchPattern) (snap : Time) :
    ∀ (files : List (List String)) (evss : List (List Event)),
    List.Forall₂ (fun lines l => fileEvents stp lines ps = .ok l) files evss →
    ∀ (a : DB × Bool),
    mainGo stp ps snap (files.map some) a =
      .ok (applyEvents a.1 (accepted snap evss.flatten),
           evss.foldl (fun _ l => !(accepted snap l).isEmpty) a.2) := by
  intro files evss h
  induction h with
  | nil => intro a; simp [mainGo, applyEvents, accepted]
  | @cons lines l files' evss' h1 h2 ih =>
    intro a
    simp only [List.map_cons, mainGo, log_to_sql, Option.getD]
    rw [logLinesGo_spec stp snap ps lines (a.1, false)]
    have h1' : fileEventsGo stp ps lines [] = .ok l := h1
    rw [h1']
    dsimp only
    rw [ih (applyEvents a.1 (accepted snap l), false || !(accepted snap l).isEmpty)]
    simp [accepted, List.filter_append, applyEvents, List.foldl_append]

/-- A fold that ignores its accumulator returns the value at the last
element (or the start value on an empty list). -/
theorem foldl_reassign (g : List Event → Bool) :
    ∀ (ls : List (List Event)) (b : Bool), ls ≠ [] →
    ls.foldl (fun _ l => g l) b = g (ls.getLastD []) := by
  intro ls
  induction ls with
  | nil => intro b h; exact absurd rfl h
  | cons l ls' ih =>
    intro b _
    cases ls' with
    | nil => simp [List.getLastD]
    | cons l2 rest =>
      have h3 := ih (g l) (by simp)
      simp only [List.foldl_cons] at h3 ⊢
      rw [h3]
      simp only [List.getLastD_cons]

/-- With no search patterns, the line loop of `log_to_sql` does nothing. -/
theorem logLinesGo_no_patterns (stp : String → Option Time) (tc : Time) :
    ∀ (lines : List String) (a : DB × Bool), logLinesGo stp tc [] lines a = .ok a := by
  intro lines
  induction lines with
  | nil => intro a; rfl
  | cons line rest ih => intro a; simpa only [logLinesGo, lineStepGo] using ih a

end DLC

namespace DLC

/-- The two UPDATE statements together act as `updRow` on every row. -/
theorem bump_set_eq_map (f : String) (t : Time) :
    ∀ (db : DB), bumpTotal f (setTimestamp f t db) = db.map (updRow f t) := by
  intro db
  induction db with
  | nil => rfl
  | cons r rest ih =>
    simp only [setTimestamp, bumpTotal, List.map_cons] at ih ⊢
    by_cases h : r.filename = f
    · simp [h, updRow, ih]
    · simp [h, updRow, ih]

/-- `updRow` never changes the filename. -/
theorem updRow_filename (f : String) (t : Time) (r : Row) :
    (updRow f t r).filename = r.filename := by
  by_cases h : r.filename = f <;> simp [updRow, h]

/-- `updRow` never changes the id. -/
theorem updRow_id (f : String) (t : Time) (r : Row) :
    (updRow f t r).id = r.id := by
  by_cases h : r.filename = f <;> simp [updRow, h]

/-- Looking up a filename commutes with the UPDATE statements. -/
theorem lookup_map_updRow (db : DB) (f : String) (t : Time) :
    lookup (db.map (updRow f t)) f = (lookup db f).map (updRow f t) := by
  unfold lookup
  rw [List.find?_map]
  have hp : ((fun r => r.filename == f) ∘ updRow f t) = (fun r : Row => r.filename == f) := by
    funext r
    simp [Function.comp, updRow_filename]
  rw [hp]

/-- Row existence is unchanged by the UPDATE statements. -/
theorem any_map_updRow (db : DB) (f : String) (t : Time) :
    (db.map (updRow f t)).any (fun r => r.filename == f) = db.any (fun r => r.filename == f) := by
  rw [List.any_map]
  congr 1
  funext r
  simp [Function.comp, updRow_filename]

/-- The largest rowid is unchanged by the UPDATE statements. -/
theorem maxId_map_updRow (f : String) (t : Time) :
    ∀ (db : DB) (a : Nat),
    List.foldl (fun a r => max a r.id) a (db.map (updRow f t)) =
      List.foldl (fun a r => max a r.id) a db := by
  intro db
  induction db with
  | nil => intro a; rfl
  | cons r rest ih =>
    intro a
    simp only [List.map_cons, List.foldl_cons, updRow_id]
    exact ih (max a r.id)

/-- What `update_db` does to the row of the updated filename: present rows
keep their id, get the new timestamp, and gain exactly one download; an
absent filename is inserted as `(maxId + 1, f, t, 1)`. -/
theorem lookup_update (db : DB) (f : String) (t : Time) :
    lookup (update_db db f t) f =
      some (match lookup db f with
            | some r => ⟨r.id, f, t, r.total + 1⟩
            | none => ⟨maxId db + 1, f, t, 1⟩) := by
  unfold update_db
  rw [bump_set_eq_map]
  dsimp only
  cases hl : lookup db f with
  | none =>
    have hl' : List.find? (fun r : Row => r.filename == f) db = none := hl
    have hany : (db.map (updRow f t)).any (fun r => r.filename == f) = false := by
      rw [any_map_updRow, List.any_eq_false]
      intro r hr
      exact List.find?_eq_none.mp hl' r hr
    rw [hany]
    simp only [Bool.false_eq_true, if_false]
    unfold lookup
    rw [List.find?_append]
    have hnone : lookup (db.map (updRow f t)) f = none := by
      rw [lookup_map_updRow, hl]
      rfl
    rw [lookup] at hnone
    rw [hnone]
    have hmax : maxId (db.map (updRow f t)) = maxId db := maxId_map_updRow f t db 0
    simp [List.find?, hmax]
  | some r =>
    have hl' : List.find? (fun r : Row => r.filename == f) db = some r := hl
    have hone : (r.filename == f) = true := by
      have := @List.find?_some Row (fun r : Row => r.filename == f) r db hl'
      simpa using this
    have hany : (db.map (updRow f t)).any (fun r => r.filename == f) = true := by
      rw [any_map_updRow, List.any_eq_true]
      exact ⟨r, List.mem_of_find?_eq_some hl', hone⟩
    rw [hany]
    simp only [if_true]
    rw [lookup_map_updRow, hl]
    have hrf : r.filename = f := by simpa using hone
    simp [updRow, hrf]

end DLC

namespace DLC

/-- A successful `statusTail` exposes the quote, whitespace and digits. -/
theorem statusTail_shape (l : List Char) (h : statusTail l = true) :
    ∃ w d1 d2 d3 rest, l = '"' :: w :: d1 :: d2 :: d3 :: rest ∧
      isPySpace w = true ∧ d1.isDigit = true ∧ d2.isDigit = true ∧ d3.isDigit = true := by
  unfold statusTail at h
  split at h
  next w d1 d2 d3 rest =>
    refine ⟨w, d1, d2, d3, rest, rfl, ?_, ?_, ?_, ?_⟩ <;> simp_all
  next => exact absurd h (by simp)

/-- A successful `statusMatchAt` span is a quote, the lazy-group content, the
closing quote, one whitespace character and exactly three digits. -/
theorem statusMatchAt_shape (s resp : List Char) (h : statusMatchAt s = some resp) :
    ∃ mid w d1 d2 d3, resp = '"' :: mid ++ ['"', w, d1, d2, d3] ∧
      isPySpace w = true ∧ d1.isDigit = true ∧ d2.isDigit = true ∧ d3.isDigit = true := by
  unfold statusMatchAt at h
  split at h
  next rest =>
    split at h
    next k hk =>
      have hpred := List.find?_some hk
      rw [Bool.and_eq_true] at hpred
      obtain ⟨-, htry⟩ := hpred
      unfold statusTryK at htry
      rw [Bool.and_eq_true] at htry
      obtain ⟨-, htail⟩ := htry
      obtain ⟨w, d1, d2, d3, rest2, hdrop, hw, h1, h2, h3⟩ := statusTail_shape _ htail
      refine ⟨rest.take k, w, d1, d2, d3, ?_, hw, h1, h2, h3⟩
      have hresp : resp = '"' :: rest.take (k + 5) := (Option.some.inj h).symm
      rw [hresp, List.take_add, hdrop]
      simp
    next => exact absurd h (by simp)
  next => exact absurd h (by simp)

/-- A successful `statusSearch` span has the `statusMatchAt` shape. -/
theorem statusSearch_shape : ∀ (s resp : List Char), statusSearch s = some resp →
    ∃ mid w d1 d2 d3, resp = '"' :: mid ++ ['"', w, d1, d2, d3] ∧
      isPySpace w = true ∧ d1.isDigit = true ∧ d2.isDigit = true ∧ d3.isDigit = true := by
  intro s
  induction s with
  | nil => intro resp h; exact absurd h (by simp [statusSearch])
  | cons c rest ih =>
    intro resp h
    unfold statusSearch at h
    split at h
    next m hm => exact statusMatchAt_shape _ _ (h ▸ hm)
    next => exact ih resp h

/-- On a `statusSearch` result, the source's `re.search('200$', response)`
test holds exactly when the three captured status digits are `200`. -/
theorem endsWith200_iff_digits (s resp : List Char) (h : statusSearch s = some resp) :
    (endsWith200 resp = true ↔ statusDigits resp = ['2', '0', '0']) := by
  obtain ⟨mid, w, d1, d2, d3, hresp, hw, h1, h2, h3⟩ := statusSearch_shape s resp h
  have hrev : resp.reverse = d3 :: d2 :: d1 :: w :: '"' :: (mid.reverse ++ ['"']) := by
    rw [hresp]
    simp
  have hd3 : ('\n' == d3) = false := by
    cases hh : ('\n' == d3) with
    | false => rfl
    | true =>
      have : d3 = '\n' := (beq_iff_eq.mp hh).symm
      rw [this] at h3
      exact absurd h3 (by decide)
  constructor
  · intro he
    unfold endsWith200 at he
    rw [hrev] at he
    simp only [charsStart, hd3, Bool.false_and, Bool.or_false, Bool.and_eq_true,
      beq_iff_eq] at he
    unfold statusDigits
    rw [hrev]
    obtain ⟨e3, e2, e1, -⟩ := he
    simp [← e1, ← e2, ← e3]
  · intro hd
    unfold statusDigits at hd
    rw [hrev] at hd
    simp only [List.take, List.reverse_cons] at hd
    have hds : d3 = '0' ∧ d2 = '0' ∧ d1 = '2' := by
      have : [d1, d2, d3] = ['2', '0', '0'] := by simpa using hd
      have e1 := congrArg (fun l => l.get? 0) this
      have e2 := congrArg (fun l => l.get? 1) this
      have e3 := congrArg (fun l => l.get? 2) this
      simp at e1 e2 e3
      exact ⟨e3, e2, e1⟩
    unfold endsWith200
    rw [hrev]
    simp [charsStart, hds.1, hds.2.1, hds.2.2]

/-- `get_time` only fails with `sys.exit`, never with `AttributeError`. -/
theorem get_time_error_fatal (stp : String → Option Time) (record : String)
    (e : RunError) (h : get_time stp record = .error e) : ∃ msg, e = .fatalExit msg := by
  unfold get_time at h
  split at h
  next span =>
    split at h
    next => exact absurd h (by simp)
    next => exact ⟨"ValueError", (Except.error.inj h).symm⟩
  next => exact ⟨"Could not read timestamp from log.", (Except.error.inj h).symm⟩

/-- `update_db` on the empty table inserts `(1, f, t, 1)`. -/
theorem update_db_nil (f : String) (t : Time) : update_db [] f t = [⟨1, f, t, 1⟩] := rfl

/-- `update_db` on the singleton table of the same filename keeps the id,
overwrites the timestamp and adds one download. -/
theorem update_db_same (i : Nat) (f : String) (t0 t : Time) (n : Nat) :
    update_db [⟨i, f, t0, n⟩] f t = [⟨i, f, t, n + 1⟩] := by
  simp [update_db, setTimestamp, bumpTotal]

/-- Replaying events that all carry the same filename over its singleton
table accumulates the count and keeps the LAST event's timestamp. -/
theorem applyEvents_single :
    ∀ (evs : List Event) (i : Nat) (f : String) (t : Time) (n : Nat),
    (∀ e ∈ evs, e.1 = f) →
    applyEvents [⟨i, f, t, n⟩] evs = [⟨i, f, (evs.getLastD (f, t)).2, n + evs.length⟩] := by
  intro evs
  induction evs with
  | nil => intro i f t n h; simp [applyEvents, List.getLastD]
  | cons e rest ih =>
    intro i f t n h
    have he : e.1 = f := h e (by simp)
    simp only [applyEvents, List.foldl_cons] at ih ⊢
    rw [he, update_db_same]
    rw [ih i f e.2 (n + 1) (fun x hx => h x (by simp [hx]))]
    rw [List.getLastD_cons]
    have hee : ((f : String), e.2) = e := by
      rw [← he]
    rw [hee]
    have hn : n + 1 + rest.length = n + (rest.length + 1) := by omega
    rw [hn]
    simp

end DLC

namespace DLC

/-- Stripping one level of backslashes undoes `re.escape`: the escaped
pattern piece denotes exactly the original literal. -/
theorem unescape_reEscape : ∀ (cs : List Char), unescapeList (reEscapeList cs) = cs := by
  intro cs
  induction cs with
  | nil => rfl
  | cons c cs ih =>
    by_cases h : c ∈ escapedChars
    · rw [reEscapeList, if_pos h]
      rw [unescapeList.eq_def]
      dsimp only
      rw [if_pos rfl]
      rw [ih]
    · have hc : ¬ c = '\\' := by
        intro hh
        rw [hh] at h
        exact h (by decide)
      rw [reEscapeList, if_neg h]
      rw [unescapeList.eq_def]
      dsimp only
      rw [if_neg hc, ih]

end DLC

namespace DLC

/-- Claim C1: in Incremental mode every extracted event is stored if and only
if its timestamp is strictly greater than the single watermark snapshot taken
from the store before any file is processed: the final table is the initial
table with exactly the events passing `timestamp > snapshot` applied in
order, where the snapshot `get_db_time db` is computed from the initial table
and never updated during the run (so an accepted event does not change the
threshold used for later-examined lines; an event at exactly the stored
maximum is rejected and one a second later is accepted — see the witness). -/
theorem c1_watermark_snapshot (stp : String → Option Time) (ps : List SearchPattern)
    (logs : List (Option (List String))) (db : DB) (evs : List Event)
    (h : runEvents stp logs ps = .ok evs) :
    (∃ m, main stp ps logs db =
        .ok (applyEvents db (accepted (get_db_time db) evs), m)) ∧
    (∀ e, e ∈ accepted (get_db_time db) evs ↔ e ∈ evs ∧ get_db_time db < e.2) := by
  constructor
  · have hs := mainGo_spec stp ps (get_db_time db) logs (db, false)
    rw [runEvents] at h
    rw [h] at hs
    exact hs
  · intro e
    simp [accepted, List.mem_filter]

/-- Claim C1 witness: stored maximum `last_seen` is 5; the log holds one
event at exactly 5 (rejected) and one at 6 (accepted): the single row ends
with `total` incremented once and `last_seen = 6`. -/
theorem c1_watermark_snapshot_witness :
    ∃ m, main spDigits [patU] [some [lineT ("5"), lineT ("6")]] [⟨1, "f.zip", 5, 1⟩] =
      .ok ([⟨1, "f.zip", 6, 2⟩], m) := by
  obtain ⟨⟨m, hm⟩, -⟩ := c1_watermark_snapshot spDigits [patU]
    [some [lineT ("5"), lineT ("6")]] [⟨1, "f.zip", 5, 1⟩]
    [(("f.zip" : String), (5 : Time)), (("f.zip" : String), (6 : Time))] rfl
  exact ⟨m, hm⟩

/-- Claim C2: the three-statement upsert behaves as one atomic
`record_event`: for an existing filename the row keeps its id, its
`last_seen` becomes exactly the given timestamp (last write wins, even when
older than the stored one) and its `total` grows by exactly one; for an
absent filename the row `(filename, timestamp, total = 1)` appears; and two
identical calls add exactly two, never skipped or double-applied. -/
theorem c2_record_event_upsert (db : DB) (f : String) (t : Time) :
    (lookup db f = none →
       lookup (update_db db f t) f = some ⟨maxId db + 1, f, t, 1⟩ ∧
       lookup (update_db (update_db db f t) f t) f = some ⟨maxId db + 1, f, t, 2⟩) ∧
    (∀ r, lookup db f = some r →
       lookup (update_db db f t) f = some ⟨r.id, f, t, r.total + 1⟩ ∧
       lookup (update_db (update_db db f t) f t) f = some ⟨r.id, f, t, r.total + 2⟩) := by
  constructor
  · intro hnone
    have h1 : lookup (update_db db f t) f = some ⟨maxId db + 1, f, t, 1⟩ := by
      rw [lookup_update, hnone]
    refine ⟨h1, ?_⟩
    rw [lookup_update, h1]
  · intro r hsome
    have h1 : lookup (update_db db f t) f = some ⟨r.id, f, t, r.total + 1⟩ := by
      rw [lookup_update, hsome]
    refine ⟨h1, ?_⟩
    rw [lookup_update, h1]

/-- Claim C2 witness: the row for `a.zip` stores `last_seen = 5`,
`total = 3`; recording an event with the OLDER timestamp 2 yields
`last_seen = 2` (last write wins) and `total = 4`. -/
theorem c2_record_event_upsert_witness :
    lookup (update_db [⟨1, "a.zip", 5, 3⟩] ("a.zip") 2) ("a.zip") =
      some ⟨1, "a.zip", 2, 4⟩ :=
  ((c2_record_event_upsert [⟨1, "a.zip", 5, 3⟩] ("a.zip") 2).2 ⟨1, "a.zip", 5, 3⟩ rfl).1

/-- Claim C3: re-running Incremental mode over a log file with no entries
newer than the stored watermark is a no-op: the table is returned unchanged
(same totals, same timestamps) and `_modified` stays false, so the guarded
end-of-run `conn.commit(); conn.execute("VACUUM")` compaction step is
skipped. -/
theorem c3_idempotent_rerun (stp : String → Option Time) (ps : List SearchPattern)
    (lines : List String) (db : DB) (evs : List Event)
    (h : fileEvents stp lines ps = .ok evs)
    (hold : ∀ e ∈ evs, e.2 ≤ get_db_time db) :
    main stp ps [some lines] db = .ok (db, false) := by
  have hacc : accepted (get_db_time db) evs = [] := by
    rw [accepted, List.filter_eq_nil_iff]
    intro e he
    simpa using Nat.not_lt.mpr (hold e he)
  unfold main mainGo
  simp only [log_to_sql, Option.getD]
  rw [logLinesGo_spec stp (get_db_time db) ps lines (db, false)]
  have h' : fileEventsGo stp ps lines [] = .ok evs := h
  rw [h']
  dsimp only
  rw [hacc]
  simp [applyEvents, mainGo]

/-- Claim C3 witness: the stored watermark is 9 and the log's only event is
timestamped 5: the table is unchanged and no compaction runs. -/
theorem c3_idempotent_rerun_witness :
    main spDigits [patU] [some [lineT ("5")]] [⟨1, "f.zip", 9, 4⟩] =
      .ok ([⟨1, "f.zip", 9, 4⟩], false) :=
  c3_idempotent_rerun spDigits [patU] [lineT ("5")] [⟨1, "f.zip", 9, 4⟩]
    [(("f.zip" : String), (5 : Time))] rfl (by decide)

end DLC

namespace DLC

/-- Evaluation of `get_record` once the filename pattern and the status
search have both matched. -/
theorem get_record_eval (stp : String → Option Time) (line : String) (p : SearchPattern)
    (span resp : List Char)
    (hm : reSearch p.pa p.pb line.data = some span)
    (hs : statusSearch line.data = some resp) :
    get_record stp line p =
      if endsWith200 resp = true then
        match get_time stp line with
        | .ok t => .ok (some (String.mk (lastSegment span), t))
        | .error e => .error e
      else .ok none := by
  unfold get_record
  rw [hm]
  dsimp only
  rw [hs]

/-- The filename stored by `get_record` is the final path segment of the
matched span. -/
theorem get_record_name (stp : String → Option Time) (line : String) (p : SearchPattern)
    (span : List Char) (n : String) (t : Time)
    (hm : reSearch p.pa p.pb line.data = some span)
    (hg : get_record stp line p = .ok (some (n, t))) :
    n = String.mk (lastSegment span) := by
  cases hss : statusSearch line.data with
  | none =>
    unfold get_record at hg
    rw [hm] at hg
    dsimp only at hg
    rw [hss] at hg
    exact absurd hg (by simp)
  | some resp =>
    rw [get_record_eval stp line p span resp hm hss] at hg
    by_cases hE : endsWith200 resp = true
    · rw [if_pos hE] at hg
      cases hgt : get_time stp line with
      | ok t2 =>
        rw [hgt] at hg
        simp only [Except.ok.injEq, Option.some.injEq, Prod.mk.injEq] at hg
        exact hg.1.symm
      | error e =>
        rw [hgt] at hg
        exact absurd hg (by simp)
    · rw [if_neg hE] at hg
      exact absurd hg (by simp)

/-- Claim C4: on a line where the filename pattern matched and the status
search found a quoted field followed by a 3-digit code, an event is stored
only when those three digits are exactly `200`; any other status yields
`.ok none` — the line is discarded silently, not treated as an error. -/
theorem c4_status_filtering (stp : String → Option Time) (line : String) (p : SearchPattern)
    (span resp : List Char)
    (hm : reSearch p.pa p.pb line.data = some span)
    (hs : statusSearch line.data = some resp) :
    (statusDigits resp ≠ ['2', '0', '0'] → get_record stp line p = .ok none) ∧
    (∀ ev, get_record stp line p = .ok (some ev) → statusDigits resp = ['2', '0', '0']) := by
  have hev := get_record_eval stp line p span resp hm hs
  have hbridge := endsWith200_iff_digits line.data resp hs
  constructor
  · intro hne
    have h200 : ¬ endsWith200 resp = true := fun hE => hne (hbridge.mp hE)
    rw [hev, if_neg h200]
  · intro ev hgr
    by_cases hE : endsWith200 resp = true
    · exact hbridge.mp hE
    · rw [hev, if_neg hE] at hgr
      exact absurd hgr (by simp)

/-- Claim C4 witness: a line matching the `/u/`…`.zip` pattern with status
404 produces no stored event and no error. -/
theorem c4_status_filtering_witness : get_record spDigits c4line patU = .ok none :=
  (c4_status_filtering spDigits c4line patU (String.data ("GET /u/f.zip"))
    (String.data ("\"GET /u/f.zip\" 404")) rfl rfl).1 (by decide)

/-- Claim C6 counterexample: this line matches the filename pattern and has
NO bracketed timestamp field, yet the run does not abort — the 404 status
check short-circuits before the timestamp is ever read, and the line is
silently discarded (`.ok none`). -/
theorem c6_counterexample :
    (reSearch patU.pa patU.pb c6line.data).isSome = true ∧
    reSearch ['['] [']'] c6line.data = none ∧
    get_record spDigits c6line patU = .ok none :=
  ⟨rfl, rfl, rfl⟩

/-- Claim C6 (amended): on a pattern-matching line WHOSE STATUS CHECK PASSED
(code 200), a missing or unparsable bracketed timestamp field aborts the
entire run with `sys.exit`. -/
theorem c6_amended_fatal_timestamp (stp : String → Option Time) (line : String)
    (p : SearchPattern) (span resp : List Char)
    (hm : reSearch p.pa p.pb line.data = some span)
    (hs : statusSearch line.data = some resp)
    (h200 : endsWith200 resp = true)
    (hbad : reSearch ['['] [']'] line.data = none ∨
       ∀ sp2, reSearch ['['] [']'] line.data = some sp2 →
         stp (String.mk (pyStrip sp2)) = none) :
    ∃ msg, get_record stp line p = .error (.fatalExit msg) := by
  rw [get_record_eval stp line p span resp hm hs, if_pos h200]
  unfold get_time
  rcases hbad with hb | hb
  · rw [hb]
    exact ⟨"Could not read timestamp from log.", rfl⟩
  · cases hbr : reSearch ['['] [']'] line.data with
    | none =>
      exact ⟨"Could not read timestamp from log.", rfl⟩
    | some sp2 =>
      dsimp only
      rw [hb sp2 hbr]
      exact ⟨"ValueError", rfl⟩

/-- Claim C6 (amended) witness: a 200-status matching line without any
bracketed timestamp field terminates the run fatally. -/
theorem c6_amended_fatal_timestamp_witness :
    ∃ msg, get_record spDigits c6wline patU = .error (.fatalExit msg) :=
  c6_amended_fatal_timestamp spDigits c6wline patU (String.data ("GET /u/f.zip"))
    (String.data ("\"GET /u/f.zip\" 200")) rfl rfl rfl (Or.inl rfl)

/-- Claim C7: the counting key is the final path segment of the matched
span; two accepted lines whose matched paths share a basename accumulate
into the single row keyed by that basename, with `total = 2`. -/
theorem c7_basename_reduction (stp : String → Option Time) (l1 l2 : String)
    (p : SearchPattern) (sp1 sp2 : List Char) (n1 n2 : String) (t1 t2 : Time)
    (h1 : reSearch p.pa p.pb l1.data = some sp1)
    (h2 : reSearch p.pa p.pb l2.data = some sp2)
    (hg1 : get_record stp l1 p = .ok (some (n1, t1)))
    (hg2 : get_record stp l2 p = .ok (some (n2, t2)))
    (hbase : lastSegment sp1 = lastSegment sp2) :
    n1 = String.mk (lastSegment sp1) ∧ n2 = n1 ∧
    update_db (update_db [] n1 t1) n2 t2 = [⟨1, n1, t2, 2⟩] := by
  have e1 := get_record_name stp l1 p sp1 n1 t1 h1 hg1
  have e2 := get_record_name stp l2 p sp2 n2 t2 h2 hg2
  have e21 : n2 = n1 := by rw [e1, e2, hbase]
  refine ⟨e1, e21, ?_⟩
  rw [e21, update_db_nil, update_db_same]

/-- Claim C7 witness: `/a/x/report.zip` and `/a/y/report.zip` both accepted:
one row keyed `report.zip` with `total = 2`. -/
theorem c7_basename_reduction_witness :
    update_db (update_db [] ("report.zip") 3) ("report.zip") 7 =
      [⟨1, "report.zip", 7, 2⟩] :=
  (c7_basename_reduction spDigits c7line1 c7line2 patA
    (String.data ("GET /a/x/report.zip")) (String.data ("GET /a/y/report.zip"))
    ("report.zip") ("report.zip") 3 7 rfl rfl rfl rfl rfl).2.2

end DLC

namespace DLC

/-- Claim C5 counterexample: Reinitialize mode does NOT accept every matching
200-status event — `log_to_sql` is called without a `timecheck`, which becomes
`datetime.min`, and acceptance still uses strict `>`: a matching 200-status
event timestamped exactly `datetime.min` (here 0) is extracted yet the
reinitialized store stays empty. -/
theorem c5_counterexample :
    get_record spDigits c5line0 patU = .ok (some (("f.zip" : String), (0 : Time))) ∧
    init_db spDigits [patU] [some [c5line0]] = .ok [] :=
  ⟨rfl, rfl⟩

/-- Claim C5 (amended): Reinitialize mode first discards all rows, then
accepts every matching 200-status event whose timestamp is strictly greater
than the `datetime.min` sentinel (only events at exactly `datetime.min` are
filtered; no stored watermark is consulted); in particular, events for a
single filename, all with positive timestamps, spread over any log
fragments in any order, yield `total` = their count and `last_seen` = the
last-processed event's timestamp. -/
theorem c5_reinitialize_bulk_load (stp : String → Option Time) (ps : List SearchPattern)
    (logs : List (Option (List String))) (evs : List Event)
    (h : runEvents stp logs ps = .ok evs) :
    init_db stp ps logs = .ok (applyEvents [] (accepted 0 evs)) ∧
    (∀ f, evs ≠ [] → (∀ e ∈ evs, e.1 = f ∧ 0 < e.2) →
       init_db stp ps logs =
         .ok [⟨1, f, (evs.getLastD (("" : String), (0 : Time))).2, evs.length⟩]) := by
  have hspec := initGo_spec stp ps logs []
  rw [runEvents] at h
  rw [h] at hspec
  dsimp only at hspec
  have hspec2 : init_db stp ps logs = .ok (applyEvents [] (accepted 0 evs)) := hspec
  refine ⟨hspec2, ?_⟩
  intro f hne hall
  have hpos : accepted 0 evs = evs := by
    rw [accepted, List.filter_eq_self]
    intro e he
    simpa using (hall e he).2
  rw [hspec2, hpos]
  cases evs with
  | nil => exact absurd rfl hne
  | cons e rest =>
    have he1 : e.1 = f := (hall e (by simp)).1
    simp only [applyEvents, List.foldl_cons]
    rw [he1, update_db_nil]
    have hsingle := applyEvents_single rest 1 f e.2 1
      (fun x hx => (hall x (by simp [hx])).1)
    simp only [applyEvents] at hsingle
    rw [hsingle, List.getLastD_cons]
    have hee : ((f : String), e.2) = e := by rw [← he1]
    rw [hee]
    have hn : 1 + rest.length = (e :: rest).length := by simp [Nat.add_comm]
    rw [hn]

/-- Claim C5 (amended) witness: three log fragments with 5, 3 and 2 matching
events for `f.zip`, all positive timestamps, out of timestamp order: the
reinitialized store holds one row with `total = 10` (and `last_seen` = the
last-processed event's timestamp, 4). -/
theorem c5_reinitialize_bulk_load_witness :
    init_db spDigits [patU] [some c5file1, some c5file2, some c5file3] =
      .ok [⟨1, "f.zip", 4, 10⟩] := by
  have h := (c5_reinitialize_bulk_load spDigits [patU]
    [some c5file1, some c5file2, some c5file3]
    [(("f.zip" : String), (7 : Time)), ("f.zip", 2), ("f.zip", 9), ("f.zip", 5),
     ("f.zip", 6), ("f.zip", 3), ("f.zip", 8), ("f.zip", 1), ("f.zip", 10),
     ("f.zip", 4)] rfl).2 ("f.zip") (by decide) (by decide)
  exact h

/-- Claim C8: the Pattern Builder emits exactly one expression per suffix
(none for the empty suffix list), each of the form literal `GET` + path,
`.*`, literal suffix with both pieces `re.escape`-d (stripping the escaping
backslashes recovers the original literals); and with the empty suffix list
no line ever matches: `log_to_sql` returns any table unchanged with
`_modified = False`. -/
theorem c8_pattern_builder (path : String) (files : List String) :
    (re_patterns_str path files).length = files.length ∧
    re_patterns_str path [] = [] ∧
    unescapeList (reEscape path).data = path.data ∧
    (∀ f ∈ files, unescapeList (reEscape f).data = f.data ∧
       build_pattern_str path f = "GET " ++ reEscape path ++ ".*" ++ reEscape f) ∧
    (∀ (stp : String → Option Time) (db : DB) (lines : List String) (tcheck : Option Time),
       log_to_sql stp db lines (re_patterns path []) tcheck = .ok (db, false)) := by
  refine ⟨by simp [re_patterns_str], rfl, ?_, ?_, ?_⟩
  · exact unescape_reEscape path.data
  · intro f _
    exact ⟨unescape_reEscape f.data, rfl⟩
  · intro stp db lines tcheck
    unfold log_to_sql re_patterns
    simp only [List.map_nil]
    exact logLinesGo_no_patterns stp (tcheck.getD 0) lines (db, false)

/-- Claim C8 witness: two suffixes give two pattern strings whose escaping is
invertible, and an empty suffix list makes a run count nothing. -/
theorem c8_pattern_builder_witness :
    (re_patterns_str ("/u/") [(".zip" : String), ".exe"]).length = 2 ∧
    unescapeList (reEscape (".zip")).data = (".zip" : String).data ∧
    log_to_sql spDigits [⟨1, "f.zip", 5, 1⟩] [lineT ("9")] (re_patterns ("/u/") []) none =
      .ok ([⟨1, "f.zip", 5, 1⟩], false) := by
  obtain ⟨h1, -, -, h4, h5⟩ := c8_pattern_builder ("/u/") [(".zip" : String), ".exe"]
  exact ⟨h1, (h4 (".zip") (by simp)).1,
    h5 spDigits [⟨1, "f.zip", 5, 1⟩] [lineT ("9")] none⟩

/-- Claim C9: the extractor is not total on pattern-matching lines: when the
filename pattern matched but the status search finds nothing, `get_record`
raises the unhandled `AttributeError` (from `.group()` on `None`) instead of
returning "no event"; and this crash branch is unreachable whenever the
status search succeeds (or the pattern does not match at all). -/
theorem c9_status_crash_totality (stp : String → Option Time) (line : String)
    (p : SearchPattern) :
    (∀ span, reSearch p.pa p.pb line.data = some span → statusSearch line.data = none →
       get_record stp line p = .error .attrError) ∧
    (statusSearch line.data ≠ none → get_record stp line p ≠ .error .attrError) ∧
    (reSearch p.pa p.pb line.data = none → get_record stp line p = .ok none) := by
  refine ⟨?_, ?_, ?_⟩
  · intro span hm hs
    unfold get_record
    rw [hm]
    dsimp only
    rw [hs]
  · intro hs
    cases hm : reSearch p.pa p.pb line.data with
    | none =>
      unfold get_record
      rw [hm]
      simp
    | some span =>
      cases hss : statusSearch line.data with
      | none => exact absurd hss hs
      | some resp =>
        rw [get_record_eval stp line p span resp hm hss]
        by_cases hE : endsWith200 resp = true
        · rw [if_pos hE]
          cases hgt : get_time stp line with
          | ok t => simp
          | error e =>
            obtain ⟨msg, hmsg⟩ := get_time_error_fatal stp line e hgt
            simp [hmsg]
        · rw [if_neg hE]
          simp
  · intro hm
    unfold get_record
    rw [hm]

/-- Claim C9 witness: a line that matches the filename pattern but has no
quoted-field-plus-status token crashes with `AttributeError`. -/
theorem c9_status_crash_totality_witness :
    get_record spDigits c9line patU = .error .attrError :=
  (c9_status_crash_totality spDigits c9line patU).1 (String.data ("GET /u/f.zip")) rfl rfl

/-- Claim C10 counterexample: the claim says the commit/VACUUM step is
determined solely by whether the LAST CONFIGURED log file produced an
accepted event.  Here the last configured file is missing (it produces no
events at all — second conjunct), yet the run executes the compaction step
(`_modified = true`), because a file that fails to open leaves the
reassigned flag untouched. -/
theorem c10_counterexample :
    main spDigits [patU] [some [c10line], none] [] = .ok ([⟨1, "f.zip", 6, 1⟩], true) ∧
    runEvents spDigits [(none : Option (List String))] [patU] = .ok [] :=
  ⟨rfl, rfl⟩

/-- Claim C10 (amended): when every configured log file opens successfully,
the end-of-run commit+VACUUM is gated solely by whether the LAST file
produced at least one accepted event — the flag is reassigned per file, not
accumulated — while all accepted events of every file are still applied to
the store (the per-event commit inside the upsert persists them). -/
theorem c10_vacuum_gated_by_last_file (stp : String → Option Time)
    (ps : List SearchPattern) (db : DB) (files : List (List String))
    (evss : List (List Event))
    (h : List.Forall₂ (fun lines l => fileEvents stp lines ps = .ok l) files evss) :
    main stp ps (files.map some) db =
      .ok (applyEvents db (accepted (get_db_time db) evss.flatten),
           !(accepted (get_db_time db) (evss.getLastD [])).isEmpty) := by
  rw [main, mainGo_present stp ps (get_db_time db) files evss h (db, false)]
  cases evss with
  | nil => rfl
  | cons l ls =>
    rw [foldl_reassign (fun l => !(accepted (get_db_time db) l).isEmpty) (l :: ls) false
      (by simp)]

/-- Claim C10 (amended) witness: the first file accepts an event, the last
file accepts none: the store is modified and persisted, yet the compaction
flag is false (commit/VACUUM skipped). -/
theorem c10_vacuum_gated_by_last_file_witness :
    main spDigits [patU] [some [c10line], some [("nomatch" : String)]] [] =
      .ok ([⟨1, "f.zip", 6, 1⟩], false) := by
  have h := c10_vacuum_gated_by_last_file spDigits [patU] []
    [[c10line], [("nomatch" : String)]]
    [[(("f.zip" : String), (6 : Time))], []]
    (List.Forall₂.cons rfl (List.Forall₂.cons rfl List.Forall₂.nil))
  exact h

end DLC
